import Mathlib

/-!
Verification of the Guardian text threat-classification service.

This file is a shallow embedding of the risk-scoring and enrichment
pipeline of the Guardian repository (`api/app/classifier.py`,
`api/app/gemini.py`, `api/app/threat_intel.py`, `api/app/models.py`).
Python floats are modelled as exact rationals (`ℚ`), Python exceptions as
`Except`/error inductives, and the external collaborators (the `langdetect`
library, the regex engine's match streams, the threat-intel scan results and
the Gemini network endpoint) as oracle parameters.  Every definition follows
the corresponding source function; deviations are noted in doc comments.
-/

/- Batteries marks the `Rat` arithmetic operations `@[irreducible]`, which
stops `decide`/`rfl` from evaluating the embedded pipeline on concrete
inputs.  Restore default reducibility: the kernel itself has no notion of
reducibility, so this affects elaboration only, not soundness. -/
set_option allowUnsafeReducibility true in
attribute [semireducible] Rat.mul Rat.div Rat.inv Rat.add Rat.sub Rat.neg Rat.blt

namespace Guardian

/-! ### String helpers

Python `in` (substring test), `str.lower`, and whitespace handling,
modelled over `List Char`.  Python's `\w` is modelled as
alphanumeric-or-underscore and `\s` as the ASCII whitespace characters;
this matches the repository's inputs, which are handled as text.
-/

/-- Substring test: does `pat` occur contiguously inside `hay`?
Models Python's `pat in hay` on strings. -/
def hasSub : List Char → List Char → Bool
  | [], pat => pat.isEmpty
  | c :: t, pat => pat.isPrefixOf (c :: t) || hasSub t pat

/-- Substring test on `String`, models Python `pat in hay`. -/
def strHasSub (hay pat : String) : Bool :=
  hasSub hay.data pat.data

/-- Lower-cased character list of a string, models Python `s.lower()`. -/
def lowerList (s : String) : List Char :=
  s.data.map Char.toLower

/-- Python `\w` character class (ASCII portion): alphanumeric or underscore. -/
def isWordChar (c : Char) : Bool :=
  c.isAlphanum || c == '_'

/-- Python `\s` character class (ASCII portion). -/
def pyIsSpace (c : Char) : Bool :=
  c == ' ' || c == '\t' || c == '\n' || c == '\x0d' || c == '\x0b' || c == '\x0c'

/-- Models Python `not s.strip()`: true iff the string is empty or
consists solely of whitespace.  Used by the `gemini_enrich` input check
`if not text or not text.strip()`. -/
def isBlank (s : String) : Bool :=
  s.data.all (fun c => c.isWhitespace)

/-! ### Category weights (`classifier.py`, `CATEGORY_WEIGHTS`)

The severity table; `CATEGORY_WEIGHTS.get(category, 0.5)` is modelled by
`categoryWeight`, which returns `1/2` for any category not in the table.
-/

/-- The `CATEGORY_WEIGHTS` dict from `classifier.py`. -/
def CATEGORY_WEIGHTS : List (String × ℚ) :=
  [("malware_instruction", 19/20),
   ("code_injection", 23/25),
   ("prompt_injection", 9/10),
   ("credential_harvesting", 22/25),
   ("financial_fraud", 17/20),
   ("phishing_attempt", 41/50),
   ("social_engineering", 4/5),
   ("toxic_content", 13/20),
   ("hate_speech", 17/25),
   ("misinformation", 3/5),
   ("self_harm_risk", 17/20)]

/-- The `CATEGORY_WEIGHTS.get(category, 0.5)` lookup from `classifier.py`. -/
def categoryWeight (category : String) : ℚ :=
  (List.lookup category CATEGORY_WEIGHTS).getD (1/2)

/-! ### Confidence scoring (`classifier.py`, `calculate_confidence`) -/

/-- Keyword list used for the urgency-context bonus in `calculate_confidence`. -/
def urgencyKeywords : List String := ["urgent", "immediately", "asap", "now"]

/-- Keyword list used for the authority-context bonus in `calculate_confidence`. -/
def authorityKeywords : List String := ["admin", "manager", "boss", "ceo"]

/-- Whole-text urgency word list used for the `phishing_attempt` bonus. -/
def phishingUrgencyWords : List String := ["urgent", "immediately", "expire", "limited", "now"]

/-- Whole-text authority word list used for the `phishing_attempt` bonus. -/
def phishingAuthorityWords : List String := ["official", "security", "admin", "support"]

/-- `sum(1 for word in words if word in textLower)` from `calculate_confidence`. -/
def countContained (words : List String) (textLower : List Char) : ℕ :=
  (words.filter (fun w => hasSub textLower w.data)).length

/-- `calculate_confidence(match, pattern_info, text, category)` from
`classifier.py`.  `matchedText` is `match.group(0)`, `weight` is
`pattern_info["weight"]`, `context` is `pattern_info["context"]`.
Each step mirrors one statement of the source in order. -/
def calculate_confidence (matchedText : String) (weight : ℚ) (context : String)
    (text : String) (category : String) : ℚ :=
  let matchedLower := lowerList matchedText
  let textLower := lowerList text
  let c1 := weight * categoryWeight category
  let c2 := if strHasSub context "urgency" &&
      urgencyKeywords.any (fun w => hasSub matchedLower w.data) then c1 * (11/10) else c1
  let c3 := if strHasSub context "authority" &&
      authorityKeywords.any (fun w => hasSub matchedLower w.data) then c2 * (23/20) else c2
  let c4 := if category == "phishing_attempt" &&
      decide (1 < countContained phishingUrgencyWords textLower) then c3 * (11/10) else c3
  let c5 := if category == "phishing_attempt" &&
      decide (1 < countContained phishingAuthorityWords textLower) then c4 * (21/20) else c4
  let c6 := if decide (100 < text.length) then c5 * (21/20) else c5
  min 1 c6

/-- The bonus product `B` as the specification describes it: the product of
the five independent multiplicative bonuses of `calculate_confidence`.
Written from the spec sentence for claim C8 so that the claim can be stated
as `calculate_confidence = min 1 (weight * categoryWeight * claimBonus)`. -/
def claimBonus (matchedText : String) (context : String)
    (text : String) (category : String) : ℚ :=
  let matchedLower := lowerList matchedText
  let textLower := lowerList text
  (if strHasSub context "urgency" &&
      urgencyKeywords.any (fun w => hasSub matchedLower w.data) then 11/10 else 1) *
  (if strHasSub context "authority" &&
      authorityKeywords.any (fun w => hasSub matchedLower w.data) then 23/20 else 1) *
  (if category == "phishing_attempt" &&
      decide (1 < countContained phishingUrgencyWords textLower) then 11/10 else 1) *
  (if category == "phishing_attempt" &&
      decide (1 < countContained phishingAuthorityWords textLower) then 21/20 else 1) *
  (if decide (100 < text.length) then (21/20 : ℚ) else 1)

/-! ### Language detection (`classifier.py`, `detect_language`)

The `langdetect` call is an external library; it is modelled as an oracle
`detector : String → Except String String`, where `.error` stands for a
raised `LangDetectException` (or any other exception).  The normalization
`re.sub(r'[^\w\s]', ' ', text.lower())` followed by whitespace collapsing
and `split()` is modelled exactly.
-/

/-- Character normalization of `detect_language`: lower-case, then replace
every character that is neither a word character nor whitespace by a space. -/
def cleanChars (text : String) : List Char :=
  (lowerList text).map (fun c => if isWordChar c || pyIsSpace c then c else ' ')

/-- Split a character list on whitespace, dropping empty pieces
(Python `str.split()` with no arguments). -/
def splitWSAux : List Char → List Char → List (List Char)
  | [], acc => if acc.isEmpty then [] else [acc.reverse]
  | c :: t, acc =>
      if pyIsSpace c then
        (if acc.isEmpty then splitWSAux t [] else acc.reverse :: splitWSAux t [])
      else splitWSAux t (c :: acc)

/-- Whitespace-splitting entry point. -/
def splitWS (l : List Char) : List (List Char) :=
  splitWSAux l []

/-- The token list of the normalized text (`clean_text.split()`). -/
def cleanTokens (text : String) : List (List Char) :=
  splitWS (cleanChars text)

/-- The normalized text handed to the statistical detector
(`re.sub(r'\s+', ' ', clean_text).strip()`). -/
def cleanedText (text : String) : String :=
  String.intercalate " " ((cleanTokens text).map (fun w => String.mk w))

/-- The supported language set of `detect_language`. -/
def supportedLanguages : List String := ["en", "es", "fr", "de", "pt"]

/-- `detect_language(text)` from `classifier.py`, with the `langdetect`
call abstracted as `detector`.  The source's `except (LangDetectException,
Exception)` catches every detector failure, which the oracle's `.error`
case models. -/
def detect_language (detector : String → Except String String) (text : String) : String :=
  if (cleanTokens text).length < 3 then "en"
  else
    match detector (cleanedText text) with
    | .error _ => "en"
    | .ok d => if d ∈ supportedLanguages then d else "en"

/-! ### Graph analysis (`classifier.py`, `analyze_graph`)

The five entity-extraction regex scans are external to the embedding; their
results are the `Entities` input.  Everything after extraction is modelled
exactly: the `entity_freqs` dict built by successive `update` calls (a later
category's count overwrites an earlier one for the same entity string), the
three coordination indicators, and the score formula.
-/

/-- The entity lists produced by the five `re.findall` scans of
`analyze_graph`, in the source's category order. -/
structure Entities where
  urls : List String
  mentions : List String
  hashtags : List String
  ips : List String
  emails : List String

/-- The category lists in the iteration order of the `entities` dict. -/
def entityLists (e : Entities) : List (List String) :=
  [e.urls, e.mentions, e.hashtags, e.ips, e.emails]

/-- The distinct entities across all categories
(`set().union(*entities.values())`). -/
def distinctEntities (e : Entities) : List String :=
  (entityLists e).flatten.dedup

/-- `entity_diversity = len(set().union(*entities.values()))`. -/
def entity_diversity (e : Entities) : ℕ :=
  (distinctEntities e).length

/-- The final `entity_freqs` dict value for entity `s`: its occurrence count
in the last category list containing it (later `update` calls overwrite). -/
def lastFreq (ls : List (List String)) (s : String) : ℕ :=
  ls.foldl (fun acc l => if s ∈ l then l.count s else acc) 0

/-- `frequency_weight = sum(freq for freq in entity_freqs.values())`. -/
def frequency_weight (e : Entities) : ℕ :=
  ((distinctEntities e).map (fun s => lastFreq (entityLists e) s)).sum

/-- The three summed coordination heuristics of `analyze_graph`. -/
def coordination_indicators (e : Entities) : ℕ :=
  (if 2 < e.hashtags.length ∧ e.hashtags.dedup.length < e.hashtags.length then 1 else 0) +
  (if 1 < e.urls.length ∧ e.urls.dedup.length = 1 then 1 else 0) +
  (if 3 < e.mentions.length then 1 else 0)

/-- The dictionary returned by `analyze_graph`.  `risk_factor_count` models
`len(graph_features["risk_factors"])`; the source builds that dict with
exactly three keys (`entity_diversity`, `frequency_patterns`,
`coordination_indicators`). -/
structure GraphFeatures where
  entities : List String
  entity_count : ℕ
  graph_score : ℚ
  coordination_detected : Bool
  risk_factor_count : ℕ

/-- `analyze_graph(text)` from `classifier.py`, past entity extraction. -/
def analyze_graph (e : Entities) : GraphFeatures :=
  let ediv := entity_diversity e
  let fw := frequency_weight e
  let ci := coordination_indicators e
  let coordinationWeight : ℚ := (ci : ℚ) * (1/5)
  { entities := distinctEntities e
    entity_count := (distinctEntities e).length
    graph_score := min 1 (((ediv : ℚ) * (2/5) + (fw : ℚ) * (3/10) + coordinationWeight * (3/10)) / 10)
    coordination_detected := decide (0 < ci)
    risk_factor_count := 3 }

/-! ### Pattern matching (`classifier.py`, `analyze_patterns`)

The pattern bank iteration produces, for each rule in iteration order, the
non-overlapping match stream that `re.finditer` yields on the input text.
The regex engine is external to the embedding, so each rule carries its
match stream (`matches`) as data; everything downstream of `finditer` —
the overlap test against previously accepted spans, the confidence
threshold, the social-engineering multi-match boost, and the per-rule
`break` — is modelled exactly.
-/

/-- A pydantic `Threat` (`models.py`): category tag, confidence and details. -/
structure Threat where
  category : String
  confidence_score : ℚ
  details : String
deriving DecidableEq

/-- One `re.finditer` match: its half-open span and `match.group(0)`. -/
structure PatternMatch where
  start : ℕ
  stop : ℕ
  text : String
deriving DecidableEq

/-- One pattern-bank rule together with its match stream on the input text. -/
structure RuleMatches where
  category : String
  weight : ℚ
  context : String
  matchList : List PatternMatch
deriving DecidableEq

/-- The loop state of `analyze_patterns`: the accumulated threats and the
set of already accepted spans (`matched_positions`). -/
structure PatternState where
  threats : List Threat
  matched_positions : List (ℕ × ℕ)
deriving DecidableEq

/-- The source's overlap test for a candidate span `[ms, me)` against the
previously accepted spans:
`any(start <= match_start < end or start < match_end <= end ...)`. -/
def overlapsPrev (positions : List (ℕ × ℕ)) (ms me : ℕ) : Bool :=
  positions.any (fun p =>
    (decide (p.1 ≤ ms) && decide (ms < p.2)) || (decide (p.1 < me) && decide (me ≤ p.2)))

/-- Number of accumulated social-engineering threats
(`sum(1 for t in threats if t.category == "social_engineering")`). -/
def seCount (ts : List Threat) : ℕ :=
  (ts.filter (fun t => t.category == "social_engineering")).length

/-- The social-engineering confidence boost of `analyze_patterns`: with
`k` prior accepted social-engineering matches,
`confidence = min(0.95, confidence * (1.1 + 0.05 * k))` when `k > 0`. -/
def seBoost (k : ℕ) (c : ℚ) : ℚ :=
  if 0 < k then min (19/20) (c * (11/10 + (k : ℚ) * (1/20))) else c

/-- The per-category confidence floor of `analyze_patterns`:
`threshold = 0.2 if category == "social_engineering" else 0.3`. -/
def thresholdFor (cat : String) : ℚ :=
  if cat == "social_engineering" then 1/5 else 3/10

/-- The conditional social-engineering boost applied to an accepted match's
confidence, given the threats accumulated so far. -/
def applyBoost (cat : String) (prior : List Threat) (conf : ℚ) : ℚ :=
  if cat == "social_engineering" then seBoost (seCount prior) conf else conf

/-- Recording an accepted match: append the `Threat` (details
`f"{context}: '{group(0)}'"`) and the accepted span. -/
def acceptState (st : PatternState) (cat ctx : String) (m : PatternMatch)
    (confFinal : ℚ) : PatternState :=
  { threats := st.threats ++
      [{ category := cat, confidence_score := confFinal
         details := ctx ++ ": \x27" ++ m.text ++ "\x27" }]
    matched_positions := st.matched_positions ++ [(m.start, m.stop)] }

/-- The inner `for match in pattern.finditer(text)` loop of
`analyze_patterns` for a single rule.  Mirrors the source: skip candidates
that overlap an accepted span, require the per-category confidence
threshold, apply the social-engineering boost, record threat and span, and
`break` after the first accepted match unless the category is social
engineering. -/
def processMatches (text : String) (cat : String) (w : ℚ) (ctx : String) :
    List PatternMatch → PatternState → PatternState
  | [], st => st
  | m :: rest, st =>
      if overlapsPrev st.matched_positions m.start m.stop then
        processMatches text cat w ctx rest st
      else
        let conf := calculate_confidence m.text w ctx text cat
        if thresholdFor cat ≤ conf then
          let st2 := acceptState st cat ctx m (applyBoost cat st.threats conf)
          if cat == "social_engineering" then processMatches text cat w ctx rest st2 else st2
        else processMatches text cat w ctx rest st

/-- Process one rule of the pattern bank. -/
def processRule (text : String) (st : PatternState) (r : RuleMatches) : PatternState :=
  processMatches text r.category r.weight r.context r.matchList st

/-- The full `analyze_patterns` loop state after scanning every rule. -/
def patternScan (text : String) (rules : List RuleMatches) : PatternState :=
  rules.foldl (processRule text) { threats := [], matched_positions := [] }

/-- `analyze_patterns(text, language)` from `classifier.py`: the returned
threat list (`rules` is the active language bank with its match streams). -/
def analyze_patterns (text : String) (rules : List RuleMatches) : List Threat :=
  (patternScan text rules).threats

/-- Two half-open character spans `[p.1, p.2)` and `[q.1, q.2)` intersect. -/
def spansOverlap (p q : ℕ × ℕ) : Prop :=
  max p.1 q.1 < min p.2 q.2

/-- Pairwise relation that actually holds between accepted spans: a later
accepted span either does not intersect an earlier one, or strictly
contains it on both sides (the containment case slips past the source's
overlap test). -/
def spanRel (p q : ℕ × ℕ) : Prop :=
  ¬ spansOverlap p q ∨ (q.1 < p.1 ∧ p.2 < q.2)

/-! ### Risk aggregation (`classifier.py`, `analyze_text` lines 499–571)

The weighted scoring of the collected threats.  Python dicts keyed by
category are modelled as association lists with insert-at-end semantics.
`int(x)` is Python truncation toward zero (`pyInt`).
-/

/-- Association-list update with Python-dict semantics: overwrite the first
binding of the key, or append a new binding. -/
def setKey {α : Type} : List (String × α) → String → α → List (String × α)
  | [], k, v => [(k, v)]
  | (k2, v2) :: t, k, v =>
      if k2 == k then (k2, v) :: t else (k2, v2) :: setKey t k v

/-- Python `int()` applied to a rational: truncation toward zero. -/
def pyInt (q : ℚ) : ℤ :=
  if q < 0 then ⌈q⌉ else ⌊q⌋

/-- The per-category accumulators of the scoring loop:
`category_counts` and `category_scores`. -/
structure ScoreAcc where
  counts : List (String × ℕ)
  scores : List (String × ℚ)

/-- The per-threat category weight of the scoring loop: the social
engineering weight scales with the occurrence count `n`
(`weight *= 1 + 0.15*(n-1)`). -/
def seCatWeight (cat : String) (n : ℕ) : ℚ :=
  if cat == "social_engineering" then categoryWeight cat * (1 + (3/20) * ((n : ℚ) - 1))
  else categoryWeight cat

/-- The diminishing-returns contribution of a repeated category:
`min(0.95, confidence * weight * (1 + 0.1*(n-1)))`. -/
def diminished (conf cw : ℚ) (n : ℕ) : ℚ :=
  min (19/20) (conf * cw * (1 + (1/10) * ((n : ℚ) - 1)))

/-- One iteration of the `for threat in threats` scoring loop: bump the
category count, scale the social-engineering weight with the occurrence
count, and either initialize the category score or combine it with the
diminishing-returns term (`max(old, min(0.95, ...))`). -/
def scoreStep (acc : ScoreAcc) (t : Threat) : ScoreAcc :=
  let n := (List.lookup t.category acc.counts).getD 0 + 1
  let cw := seCatWeight t.category n
  { counts := setKey acc.counts t.category n
    scores :=
      match List.lookup t.category acc.scores with
      | some s => setKey acc.scores t.category (max s (diminished t.confidence_score cw n))
      | none => setKey acc.scores t.category (t.confidence_score * cw) }

/-- The final `category_scores` dict. -/
def categoryScores (threats : List Threat) : List (String × ℚ) :=
  (threats.foldl scoreStep { counts := [], scores := [] }).scores

/-- `weighted_sum`: category scores reweighted by `CATEGORY_WEIGHTS`, plus
the sum of the threat-intel risk-factor buckets. -/
def weightedSum (threats : List Threat) (intelFactors : List ℚ) : ℚ :=
  ((categoryScores threats).map (fun p => p.2 * categoryWeight p.1)).sum + intelFactors.sum

/-- The pre-graph `base_score`: `0` when no threats were collected,
otherwise `min(100, int(weighted_sum * 70))`. -/
def base_score (threats : List Threat) (intelFactors : List ℚ) : ℤ :=
  if threats.isEmpty then 0 else min 100 (pyInt (weightedSum threats intelFactors * 70))

/-- The graph-derived `risk_increase`:
`int(graph_score * (25 if coordination else 20) * (1 + 0.1 * len(risk_factors)))`. -/
def risk_increase (gf : GraphFeatures) : ℤ :=
  pyInt (gf.graph_score * (if gf.coordination_detected then 25 else 20) *
    (1 + (1/10) * (gf.risk_factor_count : ℚ)))

/-- The post-graph base score: the increase applies only when
`graph_score > 0`, re-clamped to 100. -/
def final_score (b : ℤ) (gf : GraphFeatures) : ℤ :=
  if 0 < gf.graph_score then min 100 (b + risk_increase gf) else b

/-- The synthetic `coordinated_behavior` threat appended when graph
coordination is detected; the source's details string always reports the
five entity categories. -/
def coordinationThreat (gf : GraphFeatures) : Threat :=
  { category := "coordinated_behavior"
    confidence_score := min (9/10) (gf.graph_score + 3/10)
    details := "Detected potential coordination patterns across 5 entity types" }

/-! ### Gemini enrichment (`gemini.py`, `gemini_enrich`)

`gemini.py` defines `gemini_enrich` twice; the second definition (the one
that is live at import time) is modelled.  The network interaction and
response parsing are abstracted as `net : Except String α` — `.ok` is a
response that passed `validate_response`, `.error` any raised
`GeminiException`/timeout/rate-limit after retries.  The input validation,
the `cache_key`-gated response cache with its TTL, and the wrapping of all
failures into `GeminiException("Error in gemini_enrich: ...")` follow the
source.  The probabilistic `clean_cache` call (10% per invocation) and the
jitter are not modelled; neither affects the cache-hit semantics.
-/

/-- The errors `gemini_enrich` raises to its caller: `ValueError` for
invalid input, `GeminiException` for wrapped failures, plus Python
`KeyError` (used by the orchestrator model for `enriched["risk_score"]`). -/
inductive GuardianError where
  | valueError : String → GuardianError
  | geminiException : String → GuardianError
  | keyError : String → GuardianError
deriving DecidableEq

/-- Result of one `gemini_enrich` call: the returned value or raised error,
the response cache afterwards, and how many times the external model
endpoint was invoked (0 or 1). -/
structure GeminiCallResult (α : Type) where
  result : Except GuardianError α
  cache : List (String × α × ℤ)
  netCalls : ℕ

/-- `CACHE_TTL = timedelta(minutes=5)` from `gemini.py`, in seconds. -/
def CACHE_TTL_SECONDS : ℤ := 300

/-- Lookup of a cache key (`cache_key in response_cache`). -/
def lookupCache {α : Type} : List (String × α × ℤ) → String → Option (α × ℤ)
  | [], _ => none
  | (k2, v, ts) :: t, k => if k2 == k then some (v, ts) else lookupCache t k

/-- `del response_cache[cache_key]` for an expired entry. -/
def eraseCache {α : Type} : List (String × α × ℤ) → String → List (String × α × ℤ)
  | [], _ => []
  | (k2, v, ts) :: t, k => if k2 == k then t else (k2, v, ts) :: eraseCache t k

/-- One call of the live `gemini_enrich(text, ..., cache_key, ...)`:
input validation, cache lookup with TTL expiry, network call on a miss,
caching of a successful result under the supplied `cache_key`, and error
wrapping.  `now` is the call's wall-clock time in seconds. -/
def gemini_enrich_call {α : Type} (net : Except String α) (now : ℤ)
    (cache : List (String × α × ℤ)) (text : String) (cacheKey : Option String) :
    GeminiCallResult α :=
  if isBlank text then
    { result := .error (.valueError "Empty or whitespace-only text provided")
      cache := cache, netCalls := 0 }
  else if 30000 < text.length then
    { result := .error (.valueError "Text exceeds maximum length limit of 30000 characters")
      cache := cache, netCalls := 0 }
  else
    let hit : Option α × List (String × α × ℤ) :=
      match cacheKey with
      | some k =>
          match lookupCache cache k with
          | some (v, ts) =>
              if now - ts < CACHE_TTL_SECONDS then (some v, cache) else (none, eraseCache cache k)
          | none => (none, cache)
      | none => (none, cache)
    match hit with
    | (some v, c) => { result := .ok v, cache := c, netCalls := 0 }
    | (none, c) =>
        match net with
        | .ok v =>
            { result := .ok v
              cache := match cacheKey with | some k => c ++ [(k, v, now)] | none => c
              netCalls := 1 }
        | .error e =>
            { result := .error (.geminiException ("Error in gemini_enrich: " ++ e))
              cache := c, netCalls := 1 }

/-! ### Retry loop (`gemini.py`, `retry_with_backoff`)

`retry_with_backoff` first calls `check_retry_budget`, which reads the
module-level global `retry_budget`.  That global is never assigned anywhere
in the repository, so the read is modelled as `Option ℕ` with the program's
actual initial state being `none` (a Python `NameError` on first read).
One attempt of the wrapped coroutine — including the `check_rate_limit`
call that precedes it and the `asyncio.wait_for` timeout around it — is an
oracle `attempts : ℕ → Except ErrKind α`.  The waits are the base
exponential terms `2 ** attempt`; the uniform jitter `random()*0.1` and the
rate-limit minimum wait extracted from the error message are omitted.
-/

/-- Classification of a failed attempt.  `rateLimit` is `RateLimitExceeded`,
`timeout` is `RequestTimeout`; `other` covers every remaining exception
(non-retryable HTTP status errors, parse failures, etc.).  The source
handles all three identically. -/
inductive ErrKind where
  | rateLimit : ErrKind
  | timeout : ErrKind
  | other : String → ErrKind
deriving DecidableEq

/-- Outcome of `retry_with_backoff`.  `nameError` is the Python `NameError`
raised by reading the undefined `retry_budget` global; `budgetExceeded` the
re-raised `RetryBudgetExceeded`; `exhausted` the
`GeminiException("Failed after n attempts: ...")`; `noneReturn` the implicit
`None` when the loop body never runs. -/
inductive RetryOutcome (α : Type) where
  | success : α → RetryOutcome α
  | nameError : RetryOutcome α
  | budgetExceeded : RetryOutcome α
  | exhausted : RetryOutcome α
  | noneReturn : RetryOutcome α
deriving DecidableEq

/-- The base backoff wait before retrying after attempt `i`:
`wait_time = (2 ** attempt) + random()*0.1`, jitter omitted. -/
def backoffWait (attempt : ℕ) : ℚ := 2 ^ attempt

/-- The `for attempt in range(max_retries)` loop: run attempt `i` with
`fuel` attempts remaining; on failure at the last attempt raise
`GeminiException`, otherwise sleep `backoffWait i` and continue.  Returns
the outcome and the list of waits performed. -/
def retryGo {α : Type} (attempts : ℕ → Except ErrKind α) :
    ℕ → ℕ → RetryOutcome α × List ℚ
  | 0, _ => (.noneReturn, [])
  | 1, i =>
      match attempts i with
      | .ok v => (.success v, [])
      | .error _ => (.exhausted, [])
  | n + 2, i =>
      match attempts i with
      | .ok v => (.success v, [])
      | .error _ =>
          let r := retryGo attempts (n + 1) (i + 1)
          (r.1, backoffWait i :: r.2)

/-- `retry_with_backoff(func, max_retries=maxRetries)` from `gemini.py`:
the budget check (against the never-initialized global), the budget-capped
retry count, and the attempt loop. -/
def retry_with_backoff {α : Type} (budget : Option ℕ) (maxRetries : ℕ)
    (attempts : ℕ → Except ErrKind α) : RetryOutcome α × List ℚ :=
  match budget with
  | none => (.nameError, [])
  | some b =>
      if b < maxRetries then
        if b = 0 then (.budgetExceeded, []) else retryGo attempts b 0
      else retryGo attempts maxRetries 0

/-! ### Orchestrator (`classifier.py`, `analyze_text`)

`analyze_text` sequences: privacy transform (its result is the `text`
input of the model), language detection, threat-intel scan (an oracle,
`IntelResult`), pattern analysis, a first unconditional `await
gemini_enrich(text)` (line 481), base scoring, graph analysis, the
conditional second `await gemini_enrich(text, threats, base_score)` gated
by `settings.gemini_enrichment_enabled`, and result assembly.

The successful payload of the live `gemini_enrich` is a response that
passed `validate_response`, i.e. the `ThreatAnalysisResult` schema of
`models.py`; that schema has no `risk_score` or `threats` keys, so in the
enrichment-enabled branch the source's `enriched["risk_score"]` raises
`KeyError`.  In the disabled branch the source substitutes the literal
dict `{"risk_score": base_score, "threats": threats, "is_ai_generated":
None, "language": detected_language}`, which is the only path that
returns an `AnalyzeResult`.
-/

/-- One match produced by `threat_intel.analyze_text` (`threat_intel.py`). -/
structure IntelMatch where
  pattern : String
  matched_text : String
  category : String

/-- The threat-intel scan result: matches plus the five clamped
risk-factor buckets. -/
structure IntelResult where
  matchList : List IntelMatch
  risk_factors : List ℚ

/-- The threat built from an intel match in `analyze_text` (fixed 0.85
confidence, `f"{category}: '{matched_text}'"` details). -/
def intelThreat (m : IntelMatch) : Threat :=
  { category := m.category
    confidence_score := 17/20
    details := m.category ++ ": \x27" ++ m.matched_text ++ "\x27" }

/-- The validated Gemini response schema (`models.py`,
`ThreatAnalysisResult`). -/
structure ThreatAnalysisResult where
  threat_level : ℚ
  threat_type : List String
  justification : String
  recommendation : Option String
deriving DecidableEq

/-- The external collaborators and configuration consumed by one
`analyze_text` request: the language detector, the per-language pattern
bank with its match streams on the input, the threat-intel scan result,
the graph entity extraction, the network outcomes of the two
`gemini_enrich` calls, and `settings.gemini_enrichment_enabled`. -/
structure AnalyzeEnv where
  detector : String → Except String String
  rulesFor : String → List RuleMatches
  intel : IntelResult
  entities : Entities
  net1 : Except String ThreatAnalysisResult
  net2 : Except String ThreatAnalysisResult
  enrichmentEnabled : Bool

/-- The claim-relevant fields of `AnalyzeMetadata` (`models.py`). -/
structure AnalyzeMetadata where
  is_ai_generated : Option Bool
  language : Option String
deriving DecidableEq

/-- `AnalyzeResult` (`models.py`): bounded score, threats, metadata. -/
structure AnalyzeResult where
  risk_score : ℤ
  threats_detected : List Threat
  metadata : AnalyzeMetadata
deriving DecidableEq

/-- `analyze_text(text, ...)` from `classifier.py`.  A `.error` value is an
exception propagating out of the coroutine to its caller. -/
def analyze_text (env : AnalyzeEnv) (text : String) : Except GuardianError AnalyzeResult :=
  let lang := detect_language env.detector text
  let patternThreats := analyze_patterns text (env.rulesFor lang)
  let threats0 := patternThreats ++ env.intel.matchList.map intelThreat
  match (gemini_enrich_call env.net1 0 [] text none).result with
  | .error e => .error e
  | .ok _g1 =>
      let base0 := base_score threats0 env.intel.risk_factors
      let gf := analyze_graph env.entities
      let threats1 := if gf.coordination_detected then threats0 ++ [coordinationThreat gf] else threats0
      let final := final_score base0 gf
      if env.enrichmentEnabled then
        match (gemini_enrich_call env.net2 0 [] text none).result with
        | .error e => .error e
        | .ok _payload => .error (.keyError "risk_score")
      else
        .ok { risk_score := final
              threats_detected := threats1
              metadata := { is_ai_generated := none, language := some lang } }

/-! ### Concrete inputs for the claim theorems -/

/-- Input text for claim C3's counterexample.  On this text exactly two
rules of the English pattern bank produce `finditer` matches:
the `pii_exfiltration` SSN rule (span 6–17, weight 0.9, context
`ssn_pattern`) and, later in bank order, the `privacy_violation`
surveillance rule (span 0–22, weight 0.8, context `surveillance`), whose
match strictly contains the SSN span. -/
def textC3 : String := "track 123-45-6789 user"

/-- The match streams of the English bank on `textC3`, restricted to the
two rules with non-empty streams (rules without matches leave the loop
state unchanged), in bank iteration order. -/
def rulesC3 : List RuleMatches :=
  [{ category := "pii_exfiltration", weight := 9/10, context := "ssn_pattern"
     matchList := [{ start := 6, stop := 17, text := "123-45-6789" }] },
   { category := "privacy_violation", weight := 4/5, context := "surveillance"
     matchList := [{ start := 0, stop := 22, text := "track 123-45-6789 user" }] }]

/-- Input text for claim C4's counterexample.  On this text exactly one
rule of the English bank matches: the `social_engineering` tech-support
rule (weight 0.91, context `tech_support`), with two disjoint matches. -/
def textC4 : String := "microsoft support here. apple support too"

/-- The match streams of the English bank on `textC4`. -/
def rulesC4 : List RuleMatches :=
  [{ category := "social_engineering", weight := 91/100, context := "tech_support"
     matchList := [{ start := 0, stop := 17, text := "microsoft support" },
                   { start := 24, stop := 37, text := "apple support" }] }]

/-- A non-social-engineering rule used by claim C4's witness. -/
def ruleC4W : RuleMatches :=
  { category := "toxic_content", weight := 3/5, context := "insult"
    matchList := [{ start := 0, stop := 5, text := "idiot" }] }

/-- Attempt outcomes for claim C6's counterexample: attempt 0 fails with a
non-retryable HTTP 404 error, attempt 1 succeeds. -/
def attemptsC6 : ℕ → Except ErrKind ℕ :=
  fun i => if i = 0 then .error (.other "404 Client Error") else .ok 7

/-- Attempt outcomes for claim C6's witness: every attempt times out. -/
def attemptsC6W : ℕ → Except ErrKind ℕ :=
  fun _ => .error .timeout

/-- A well-formed validated Gemini payload used by witnesses. -/
def payloadW : ThreatAnalysisResult :=
  { threat_level := 1/2, threat_type := [], justification := "sufficiently long text", recommendation := none }

/-- Environment for claim C1: enrichment enabled, every network call to the
Gemini endpoint times out persistently (after retries `gemini_enrich`
wraps the failure into a `GeminiException`); no pattern or intel matches. -/
def envC1 : AnalyzeEnv :=
  { detector := fun _ => .error "LangDetectException"
    rulesFor := fun _ => []
    intel := { matchList := [], risk_factors := [] }
    entities := { urls := [], mentions := [], hashtags := [], ips := [], emails := [] }
    net1 := .error "Request timed out"
    net2 := .error "Request timed out"
    enrichmentEnabled := true }

/-- Input text for claim C1's failing run. -/
def textC1 : String := "Please verify your account immediately"

/-- Environment for claim C2's witness: no matches anywhere, enrichment
disabled, first Gemini call succeeds. -/
def envC2W : AnalyzeEnv :=
  { detector := fun _ => .error "LangDetectException"
    rulesFor := fun _ => []
    intel := { matchList := [], risk_factors := [] }
    entities := { urls := [], mentions := [], hashtags := [], ips := [], emails := [] }
    net1 := .ok payloadW
    net2 := .error "unused"
    enrichmentEnabled := false }

/-- Environment for claim C10's witness: enrichment disabled by
configuration, yet the first (unconditional) Gemini call fails. -/
def envC10W : AnalyzeEnv :=
  { detector := fun _ => .ok "en"
    rulesFor := fun _ => []
    intel := { matchList := [], risk_factors := [] }
    entities := { urls := [], mentions := [], hashtags := [], ips := [], emails := [] }
    net1 := .error "429 Too Many Requests"
    net2 := .ok payloadW
    enrichmentEnabled := false }

/-- Entity extraction for claim C9's witness: five identical hashtags and
one URL repeated twice. -/
def entitiesC9W : Entities :=
  { urls := ["http://a.io/x", "http://a.io/x"]
    mentions := []
    hashtags := List.replicate 5 "#go"
    ips := []
    emails := [] }

/-- Decidability of span intersection. -/
instance (p q : ℕ × ℕ) : Decidable (spansOverlap p q) := by
  unfold spansOverlap; infer_instance

/-- Confidence bounds invariant for a threat list. -/
def ConfBounded (ts : List Threat) : Prop :=
  ∀ t ∈ ts, 0 ≤ t.confidence_score ∧ t.confidence_score ≤ 1

/-- The social-engineering confidence invariant of `analyze_patterns`: every
accepted social-engineering threat carries a base confidence `c` at or above
the 0.2 floor, boosted by `seBoost` applied to the number of previously
accepted social-engineering threats. -/
def SEConfsOk (ts : List Threat) : Prop :=
  ∀ (i : ℕ) (hi : i < ts.length),
    (ts.get ⟨i, hi⟩).category = "social_engineering" →
    ∃ c, (1/5 : ℚ) ≤ c ∧ (ts.get ⟨i, hi⟩).confidence_score = seBoost (seCount (ts.take i)) c

/-- The result `analyze_text` produces on `envC2W` with input `"hello"`. -/
def resC2W : AnalyzeResult :=
  { risk_score := 0
    threats_detected := []
    metadata := { is_ai_generated := none, language := some "en" } }

/-! ## Theorems -/

/-- A successful association-list lookup returns the second component of
some list element. -/
theorem lookup_val_mem {α : Type} {l : List (String × α)} {k : String} {v : α}
    (h : List.lookup k l = some v) : ∃ p ∈ l, p.2 = v := by
  induction l with
  | nil => simp [List.lookup] at h
  | cons p t ih =>
      rw [List.lookup] at h
      by_cases hk : (k == p.1) = true
      · rw [hk] at h
        exact ⟨p, by simp, by simpa using h⟩
      · rw [Bool.not_eq_true] at hk
        rw [hk] at h
        obtain ⟨q, hq, hv⟩ := ih h
        exact ⟨q, by simp [hq], hv⟩

/-- A lookup for a key distinct from every stored key fails. -/
theorem lookup_eq_none {α : Type} {l : List (String × α)} {k : String}
    (h : ∀ p ∈ l, k ≠ p.1) : List.lookup k l = none := by
  induction l with
  | nil => rfl
  | cons p t ih =>
      rw [List.lookup]
      have hne : (k == p.1) = false := beq_eq_false_iff_ne.mpr (h p (by simp))
      rw [hne]
      exact ih (fun q hq => h q (by simp [hq]))

/-- Every category weight is positive (table values and the 0.5 default). -/
theorem categoryWeight_pos (cat : String) : 0 < categoryWeight cat := by
  unfold categoryWeight
  cases h : List.lookup cat CATEGORY_WEIGHTS with
  | none => norm_num
  | some v =>
      obtain ⟨p, hp, hv⟩ := lookup_val_mem h
      have hall : ∀ q ∈ CATEGORY_WEIGHTS, 0 < q.2 := by decide
      simpa [hv] using hall p hp

/-- The claim-side bonus product is positive. -/
theorem claimBonus_pos (m ctx txt cat : String) : 0 < claimBonus m ctx txt cat := by
  dsimp only [claimBonus]
  split_ifs <;> norm_num

set_option maxHeartbeats 1000000 in
/-- The sequential bonus application of `calculate_confidence` equals the
single product form. -/
theorem calculate_confidence_eq (m : String) (w : ℚ) (ctx txt cat : String) :
    calculate_confidence m w ctx txt cat = min 1 (w * categoryWeight cat * claimBonus m ctx txt cat) := by
  dsimp only [calculate_confidence, claimBonus]
  split_ifs <;> exact congrArg (min 1) (by ring)

/-- A nonnegative rule weight yields a nonnegative confidence. -/
theorem calculate_confidence_nonneg (m : String) (w : ℚ) (ctx txt cat : String)
    (hw : 0 ≤ w) : 0 ≤ calculate_confidence m w ctx txt cat := by
  rw [calculate_confidence_eq]
  exact le_min (by norm_num)
    (mul_nonneg (mul_nonneg hw (categoryWeight_pos cat).le) (claimBonus_pos m ctx txt cat).le)

/-- Confidence never exceeds the 1.0 clamp. -/
theorem calculate_confidence_le_one (m : String) (w : ℚ) (ctx txt cat : String) :
    calculate_confidence m w ctx txt cat ≤ 1 := by
  rw [calculate_confidence_eq]
  exact min_le_left _ _

/-- The social-engineering boost preserves nonnegativity. -/
theorem seBoost_nonneg (k : ℕ) (c : ℚ) (hc : 0 ≤ c) : 0 ≤ seBoost k c := by
  unfold seBoost
  split_ifs with h
  · exact le_min (by norm_num) (mul_nonneg hc (by positivity))
  · exact hc

/-- The social-engineering boost never exceeds 1. -/
theorem seBoost_le_one (k : ℕ) (c : ℚ) (hc : c ≤ 1) : seBoost k c ≤ 1 := by
  unfold seBoost
  split_ifs with h
  · exact le_trans (min_le_left _ _) (by norm_num)
  · exact hc

/-- Claim C8: `calculate_confidence` returns
`min(1.0, rule.weight × category_weight(category) × B)` where `B` is the
product of the five bonuses (urgency-context ×1.10, authority-context
×1.15, phishing whole-text urgency ×1.10 and authority ×1.05, length>100
×1.05); the category weight defaults to 0.5 for unknown categories, and
the result is never negative for the bank's nonnegative weights. -/
theorem C8_calculate_confidence_spec :
    (∀ (m : String) (w : ℚ) (ctx txt cat : String),
        calculate_confidence m w ctx txt cat =
          min 1 (w * categoryWeight cat * claimBonus m ctx txt cat)) ∧
    (∀ (m : String) (w : ℚ) (ctx txt cat : String),
        0 ≤ w → 0 ≤ calculate_confidence m w ctx txt cat) ∧
    (∀ cat : String, (∀ p ∈ CATEGORY_WEIGHTS, cat ≠ p.1) → categoryWeight cat = 1/2) := by
  refine ⟨calculate_confidence_eq, calculate_confidence_nonneg, ?_⟩
  intro cat h
  unfold categoryWeight
  rw [lookup_eq_none h]
  rfl

/-- Witness for C8 at the SSN rule of the bank on `textC3`: the weight 0.9
is nonnegative, the confidence is nonnegative, and `pii_exfiltration` is
not in the weight table so its weight defaults to 0.5. -/
theorem C8_witness :
    ((0 : ℚ) ≤ 9/10 ∧
      0 ≤ calculate_confidence "123-45-6789" (9/10) "ssn_pattern" textC3 "pii_exfiltration") ∧
    ((∀ p ∈ CATEGORY_WEIGHTS, "pii_exfiltration" ≠ p.1) ∧
      categoryWeight "pii_exfiltration" = 1/2) :=
  ⟨⟨by norm_num, C8_calculate_confidence_spec.2.1 "123-45-6789" (9/10) "ssn_pattern" textC3
      "pii_exfiltration" (by norm_num)⟩,
   ⟨by decide, C8_calculate_confidence_spec.2.2 "pii_exfiltration" (by decide)⟩⟩

/-- Claim C7: `detect_language` is total (the Lean model is a total
function, mirroring the source's catch-all `except` clause) and always
returns a code in the supported set; fewer than 3 normalized tokens yield
`"en"` regardless of content, and a detector error or an unsupported
detection result also yield `"en"`. -/
theorem C7_detect_language_total :
    ∀ (detector : String → Except String String) (text : String),
      detect_language detector text ∈ supportedLanguages ∧
      ((cleanTokens text).length < 3 → detect_language detector text = "en") ∧
      (∀ e, detector (cleanedText text) = .error e → detect_language detector text = "en") ∧
      (∀ d, detector (cleanedText text) = .ok d → d ∉ supportedLanguages →
        detect_language detector text = "en") := by
  intro detector text
  unfold detect_language
  by_cases hlen : (cleanTokens text).length < 3
  · rw [if_pos hlen]
    exact ⟨by decide, fun _ => rfl, fun _ _ => rfl, fun _ _ _ => rfl⟩
  · rw [if_neg hlen]
    cases hd : detector (cleanedText text) with
    | error e =>
        dsimp only
        exact ⟨by decide, fun h => absurd h hlen, fun _ _ => rfl,
          fun d hd2 => absurd hd2 (by simp)⟩
    | ok d =>
        dsimp only
        by_cases hmem : d ∈ supportedLanguages
        · rw [if_pos hmem]
          refine ⟨hmem, fun h => absurd h hlen, fun e he => absurd he (by simp), ?_⟩
          intro d2 hd2 hnm
          injection hd2 with h2
          subst h2
          exact absurd hmem hnm
        · rw [if_neg hmem]
          exact ⟨by decide, fun h => absurd h hlen, fun e he => absurd he (by simp),
            fun _ _ _ => rfl⟩

/-- Witness for C7: a detector returning the unsupported code `"zz"` on a
4-token text falls back to `"en"`, which is in the supported set. -/
theorem C7_witness :
    detect_language (fun _ => Except.ok "zz") "bonjour le monde entier" ∈ supportedLanguages ∧
    ("zz" ∉ supportedLanguages ∧
      detect_language (fun _ => Except.ok "zz") "bonjour le monde entier" = "en") :=
  ⟨(C7_detect_language_total (fun _ => Except.ok "zz") "bonjour le monde entier").1,
   ⟨by decide,
    (C7_detect_language_total (fun _ => Except.ok "zz") "bonjour le monde entier").2.2.2
      "zz" rfl (by decide)⟩⟩

/-- Claim C9: `analyze_graph` computes
`graph_score = min(1, (0.4·entity_diversity + 0.3·frequency_weight +
0.3·(coordination_indicators·0.2)) / 10)` and
`coordination_detected = (coordination_indicators > 0)` (it is a pure
function of the extracted entities by construction); and any input whose
URL list is one URL repeated twice and whose hashtag list is five copies
of one hashtag has `coordination_detected = true` and a positive
`graph_score`. -/
theorem C9_analyze_graph_spec :
    (∀ e : Entities,
        (analyze_graph e).graph_score =
          min 1 (((2/5) * (entity_diversity e : ℚ) + (3/10) * (frequency_weight e : ℚ) +
            (3/10) * ((coordination_indicators e : ℚ) * (1/5))) / 10) ∧
        (analyze_graph e).coordination_detected = decide (0 < coordination_indicators e)) ∧
    (∀ (e : Entities) (h u : String), e.urls = [u, u] → e.hashtags = List.replicate 5 h →
        (analyze_graph e).coordination_detected = true ∧ 0 < (analyze_graph e).graph_score) := by
  constructor
  · intro e
    exact ⟨congrArg (min 1) (by ring), rfl⟩
  · intro e h u hu hh
    have hurl : (if 1 < e.urls.length ∧ e.urls.dedup.length = 1 then 1 else 0) = 1 := by
      rw [if_pos]
      rw [hu]
      constructor
      · norm_num
      · rw [List.dedup_cons_of_mem (by simp), List.dedup_cons_of_not_mem (by simp),
          List.dedup_nil]
        rfl
    have hci : 1 ≤ coordination_indicators e := by
      unfold coordination_indicators
      omega
    constructor
    · dsimp only [analyze_graph]
      simp only [decide_eq_true_eq]
      omega
    · dsimp only [analyze_graph]
      refine lt_min (by norm_num) ?_
      apply div_pos ?_ (by norm_num)
      have h1 : (0 : ℚ) ≤ (entity_diversity e : ℚ) * (2/5) := by positivity
      have h2 : (0 : ℚ) ≤ (frequency_weight e : ℚ) * (3/10) := by positivity
      have h3 : (0 : ℚ) < (coordination_indicators e : ℚ) * (1/5) * (3/10) := by
        have : (1 : ℚ) ≤ (coordination_indicators e : ℚ) := by exact_mod_cast hci
        nlinarith
      linarith

/-- Witness for C9: the concrete extraction with hashtags `#go` five times
and the URL `http://a.io/x` twice. -/
theorem C9_witness :
    (analyze_graph entitiesC9W).coordination_detected = true ∧
    0 < (analyze_graph entitiesC9W).graph_score :=
  C9_analyze_graph_spec.2 entitiesC9W "#go" "http://a.io/x" rfl rfl

/-- Claim C3 counterexample: on the input `"track 123-45-6789 user"` the
bank's SSN rule accepts span `[6,17)` and the later surveillance rule's
match `[0,22)` strictly contains it; the source's overlap test
(`start <= ms < end or start < me <= end`) does not reject strict
containment, so the two accepted spans intersect, refuting the claim that
accepted spans never overlap. -/
theorem C3_counterexample :
    ¬ List.Pairwise (fun p q => ¬ spansOverlap p q)
      (patternScan textC3 rulesC3).matched_positions := by
  intro h
  rw [show (patternScan textC3 rulesC3).matched_positions = [(6, 17), (0, 22)] from by decide] at h
  exact (List.pairwise_cons.mp h).1 (0, 22) (by simp) (by unfold spansOverlap; decide)

/-- A candidate span that passes the source's overlap test is, with respect
to every previously accepted span, either disjoint from it or a strict
container of it. -/
theorem overlapsPrev_false_spanRel {positions : List (ℕ × ℕ)} {ms me : ℕ}
    (h : overlapsPrev positions ms me = false) :
    ∀ p ∈ positions, spanRel p (ms, me) := by
  intro p hp
  unfold overlapsPrev at h
  rw [List.any_eq_false] at h
  have hp2 : ((decide (p.1 ≤ ms) && decide (ms < p.2)) ||
      (decide (p.1 < me) && decide (me ≤ p.2))) = false := by
    rw [← Bool.not_eq_true]
    exact h p hp
  simp only [Bool.or_eq_false_iff, Bool.and_eq_false_iff, decide_eq_false_iff_not,
    not_lt, not_le] at hp2
  by_cases hov : spansOverlap p (ms, me)
  · right
    unfold spansOverlap at hov
    simp only [max_lt_iff, lt_min_iff] at hov
    exact ⟨by omega, by omega⟩
  · exact Or.inl hov

/-- The match loop of one rule preserves the pairwise span relation. -/
theorem processMatches_spanRel (text cat : String) (w : ℚ) (ctx : String) :
    ∀ (ms : List PatternMatch) (st : PatternState),
      List.Pairwise spanRel st.matched_positions →
      List.Pairwise spanRel (processMatches text cat w ctx ms st).matched_positions := by
  intro ms
  induction ms with
  | nil => intro st h; exact h
  | cons m rest ih =>
      intro st h
      rw [processMatches]
      split
      · exact ih st h
      · rename_i hov
        rw [Bool.not_eq_true] at hov
        dsimp only
        split
        · have hst2 : List.Pairwise spanRel
              (acceptState st cat ctx m
                (applyBoost cat st.threats
                  (calculate_confidence m.text w ctx text cat))).matched_positions := by
            dsimp only [acceptState]
            exact List.pairwise_append.mpr ⟨h, List.pairwise_singleton _ _, fun a ha b hb => by
              simp only [List.mem_singleton] at hb
              subst hb
              exact overlapsPrev_false_spanRel hov a ha⟩
          split
          · exact ih _ hst2
          · exact hst2
        · exact ih st h

/-- Claim C3 amended: within one `analyze_patterns` call, any two accepted
spans are either disjoint or the later-accepted one strictly contains the
earlier one; a candidate whose start or end point falls inside a
previously accepted span is rejected, but a candidate that strictly
contains an accepted span is not. -/
theorem C3_span_invariant :
    ∀ (text : String) (rules : List RuleMatches),
      List.Pairwise spanRel (patternScan text rules).matched_positions := by
  intro text rules
  unfold patternScan
  have hgen : ∀ (rs : List RuleMatches) (st : PatternState),
      List.Pairwise spanRel st.matched_positions →
      List.Pairwise spanRel (rs.foldl (processRule text) st).matched_positions := by
    intro rs
    induction rs with
    | nil => intro st h; exact h
    | cons r rest ih =>
        intro st h
        rw [List.foldl_cons]
        exact ih _ (processMatches_spanRel text r.category r.weight r.context r.matchList st h)
  exact hgen rules _ (List.Pairwise.nil)

/-- Claim C4 counterexample: on `"microsoft support here. apple support
too"` the social-engineering tech-support rule accepts two matches with
base confidence `0.91 × 0.80 = 0.728`; the second accepted match (one
prior social-engineering match, `k = 1`) is recorded with confidence
`min(0.95, 0.728 × (1.1 + 0.05·1)) = 0.8372`, not the compounding
`min(0.95, 0.728 × 1.05^1) = 0.7644` the claim predicts. -/
theorem C4_counterexample :
    (analyze_patterns textC4 rulesC4).map Threat.confidence_score = [91/125, 2093/2500] ∧
    (2093/2500 : ℚ) ≠ min (19/20) ((91/125) * (21/20)) := by
  constructor
  · decide
  · decide

/-- Appending a threat that satisfies the social-engineering confidence
contract preserves the invariant. -/
theorem SEConfsOk_append {ts : List Threat} (h : SEConfsOk ts) (t : Threat)
    (ht : t.category = "social_engineering" →
      ∃ c, (1/5 : ℚ) ≤ c ∧ t.confidence_score = seBoost (seCount ts) c) :
    SEConfsOk (ts ++ [t]) := by
  intro i hi hcat
  by_cases hlt : i < ts.length
  · have e1 : (ts ++ [t]).get ⟨i, hi⟩ = ts.get ⟨i, hlt⟩ := by
      simp [List.getElem_append_left hlt]
    have e2 : (ts ++ [t]).take i = ts.take i :=
      List.take_append_of_le_length (le_of_lt hlt)
    rw [e1] at hcat ⊢
    rw [e2]
    exact h i hlt hcat
  · have hieq : i = ts.length := by
      have := hi
      simp only [List.length_append, List.length_singleton] at this
      omega
    subst hieq
    have e1 : (ts ++ [t]).get ⟨ts.length, hi⟩ = t := by simp
    have e2 : (ts ++ [t]).take ts.length = ts := List.take_left ts [t]
    rw [e1] at hcat ⊢
    rw [e2]
    exact ht hcat

/-- The match loop of one rule preserves the social-engineering
confidence invariant. -/
theorem processMatches_SEConfsOk (text cat : String) (w : ℚ) (ctx : String) :
    ∀ (ms : List PatternMatch) (st : PatternState),
      SEConfsOk st.threats → SEConfsOk (processMatches text cat w ctx ms st).threats := by
  intro ms
  induction ms with
  | nil => intro st h; exact h
  | cons m rest ih =>
      intro st h
      rw [processMatches]
      split
      · exact ih st h
      · dsimp only
        split
        · rename_i hthr
          have hst2 : SEConfsOk (acceptState st cat ctx m
              (applyBoost cat st.threats
                (calculate_confidence m.text w ctx text cat))).threats := by
            dsimp only [acceptState]
            refine SEConfsOk_append h _ ?_
            intro hcat
            dsimp only at hcat
            have hb : (cat == "social_engineering") = true := beq_iff_eq.mpr hcat
            refine ⟨calculate_confidence m.text w ctx text cat, ?_, ?_⟩
            · simpa [thresholdFor, hb] using hthr
            · simp [applyBoost, hb]
          split
          · exact ih _ hst2
          · exact hst2
        · exact ih st h

/-- A rule of any category other than social engineering records at most
one threat (the `break` after the first accepted match). -/
theorem processMatches_break (text cat : String) (w : ℚ) (ctx : String)
    (hcat : (cat == "social_engineering") = false) :
    ∀ (ms : List PatternMatch) (st : PatternState),
      (processMatches text cat w ctx ms st).threats.length ≤ st.threats.length + 1 := by
  intro ms
  induction ms with
  | nil => intro st; exact Nat.le_succ _
  | cons m rest ih =>
      intro st
      rw [processMatches]
      split
      · exact ih st
      · dsimp only
        split
        · rw [hcat]
          simp only [Bool.false_eq_true, if_false]
          simp [acceptState]
        · exact ih st

/-- Claim C4 amended: every category other than social engineering records
at most one accepted match per rule; social-engineering matches
accumulate, and an accepted social-engineering match with `k` previously
accepted social-engineering matches is recorded with confidence
`seBoost k c = min(0.95, c * (1.10 + 0.05*k))` for `k ≥ 1` (and `c`
itself for `k = 0`), where `c ≥ 0.2` is its pre-boost confidence — a
single linear factor, not a compounding `1.05^k`. -/
theorem C4_per_rule_break_and_boost :
    (∀ (text : String) (st : PatternState) (r : RuleMatches),
        (r.category == "social_engineering") = false →
        (processRule text st r).threats.length ≤ st.threats.length + 1) ∧
    (∀ (text : String) (rules : List RuleMatches), SEConfsOk (analyze_patterns text rules)) := by
  constructor
  · intro text st r hr
    exact processMatches_break text r.category r.weight r.context hr r.matchList st
  · intro text rules
    unfold analyze_patterns patternScan
    have hgen : ∀ (rs : List RuleMatches) (st : PatternState),
        SEConfsOk st.threats →
        SEConfsOk ((rs.foldl (processRule text) st)).threats := by
      intro rs
      induction rs with
      | nil => intro st h; exact h
      | cons r rest ih =>
          intro st h
          rw [List.foldl_cons]
          exact ih _ (processMatches_SEConfsOk text r.category r.weight r.context r.matchList st h)
    exact hgen rules _ (fun i hi => absurd hi (by simp))

/-- Witness for C4: a non-social-engineering rule applied to the empty
state records at most one threat. -/
theorem C4_witness :
    ((ruleC4W.category == "social_engineering") = false) ∧
    (processRule "" { threats := [], matched_positions := [] } ruleC4W).threats.length ≤
      ({ threats := [], matched_positions := [] } : PatternState).threats.length + 1 :=
  ⟨by decide, C4_per_rule_break_and_boost.1 "" { threats := [], matched_positions := [] }
    ruleC4W (by decide)⟩

/-- Claim C5 counterexample: the cache TTL constant is 5 minutes, not 1
hour, and the pipeline's own calls pass `cache_key=None` (the cache is
keyed by the optional `cache_key` argument, not by the text), so two
enrichment calls with identical text each invoke the external endpoint. -/
theorem C5_counterexample :
    CACHE_TTL_SECONDS ≠ 3600 ∧
    (gemini_enrich_call (Except.ok (0 : ℕ)) 0 [] "identical text" none).netCalls = 1 ∧
    (gemini_enrich_call (Except.ok (0 : ℕ)) 1
        (gemini_enrich_call (Except.ok (0 : ℕ)) 0 [] "identical text" none).cache
        "identical text" none).netCalls = 1 := by
  exact ⟨by decide, rfl, rfl⟩

/-- An appended cache entry is found when its key was absent before. -/
theorem lookupCache_append {α : Type} {cache : List (String × α × ℤ)} {k : String}
    (h : lookupCache cache k = none) (v : α) (ts : ℤ) :
    lookupCache (cache ++ [(k, v, ts)]) k = some (v, ts) := by
  induction cache with
  | nil => simp [lookupCache]
  | cons p t ih =>
      rw [lookupCache] at h
      rw [List.cons_append, lookupCache]
      by_cases hk : (p.1 == k) = true
      · rw [hk] at h
        cases h
      · rw [Bool.not_eq_true] at hk
        rw [hk] at h ⊢
        exact ih h

/-- Claim C5 amended: the response cache is keyed by the optional
`cache_key` argument (which the analyze pipeline never supplies) with a
5-minute TTL; two calls that do supply the same fresh `cache_key` with
identical valid text within the TTL window invoke the endpoint exactly
once, and the second call returns the first call's result from the cache,
regardless of the second call's network outcome. -/
theorem C5_cache_idempotent :
    ∀ (α : Type) (v : α) (net2 : Except String α) (k : String) (now1 now2 : ℤ)
      (cache : List (String × α × ℤ)) (text : String),
      isBlank text = false → text.length ≤ 30000 → lookupCache cache k = none →
      0 ≤ now2 - now1 → now2 - now1 < CACHE_TTL_SECONDS →
      (gemini_enrich_call (Except.ok v) now1 cache text (some k)).netCalls = 1 ∧
      (gemini_enrich_call (Except.ok v) now1 cache text (some k)).result = .ok v ∧
      (gemini_enrich_call net2 now2
          (gemini_enrich_call (Except.ok v) now1 cache text (some k)).cache
          text (some k)).netCalls = 0 ∧
      (gemini_enrich_call net2 now2
          (gemini_enrich_call (Except.ok v) now1 cache text (some k)).cache
          text (some k)).result = .ok v := by
  intro α v net2 k now1 now2 cache text hb hlen hmiss hle httl
  have hlen2 : ¬ (30000 < text.length) := by omega
  have hcall1 : gemini_enrich_call (Except.ok v) now1 cache text (some k) =
      { result := .ok v, cache := cache ++ [(k, v, now1)], netCalls := 1 } := by
    unfold gemini_enrich_call
    rw [hb]
    simp only [Bool.false_eq_true, if_false]
    rw [if_neg hlen2]
    rw [hmiss]
  rw [hcall1]
  refine ⟨rfl, rfl, ?_, ?_⟩ <;>
  · unfold gemini_enrich_call
    rw [hb]
    simp only [Bool.false_eq_true, if_false]
    rw [if_neg hlen2]
    rw [lookupCache_append hmiss v now1]
    dsimp only
    rw [if_pos httl]

/-- Witness for C5: a concrete cached pair of calls with key `"key"`,
text `"hi"`, times 0 and 10. -/
theorem C5_witness :
    (gemini_enrich_call (Except.ok (5 : ℕ)) 0 [] "hi" (some "key")).netCalls = 1 ∧
    (gemini_enrich_call (Except.ok (5 : ℕ)) 0 [] "hi" (some "key")).result = .ok 5 ∧
    (gemini_enrich_call (Except.error "down") 10
        (gemini_enrich_call (Except.ok (5 : ℕ)) 0 [] "hi" (some "key")).cache
        "hi" (some "key")).netCalls = 0 ∧
    (gemini_enrich_call (Except.error "down") 10
        (gemini_enrich_call (Except.ok (5 : ℕ)) 0 [] "hi" (some "key")).cache
        "hi" (some "key")).result = .ok 5 :=
  C5_cache_idempotent ℕ 5 (Except.error "down") "key" 0 10 [] "hi"
    (by decide) (by decide) rfl (by decide) (by decide)

/-- Claim C6 counterexample: in the module's actual initial state the
`retry_budget` global was never assigned, so `retry_with_backoff` fails
with a `NameError` before any attempt runs; and when a budget is
available, a non-retryable failure (HTTP 404) on the first attempt is
retried rather than propagating — the call succeeds on the second
attempt after one backoff wait. -/
theorem C6_counterexample :
    retry_with_backoff none 3 attemptsC6 = (.nameError, []) ∧
    retry_with_backoff (some 100) 3 attemptsC6 = (.success 7, [backoffWait 0]) :=
  ⟨rfl, rfl⟩

/-- The retry loop returns the first successful attempt, having waited
`2^j` after each failed attempt `j` before it. -/
theorem retryGo_ok {α : Type} (attempts : ℕ → Except ErrKind α) :
    ∀ (k fuel start : ℕ) (v : α), k < fuel → attempts (start + k) = .ok v →
      (∀ j, j < k → ∃ e, attempts (start + j) = .error e) →
      retryGo attempts fuel start =
        (.success v, (List.range k).map (fun j => backoffWait (start + j))) := by
  intro k
  induction k with
  | zero =>
      intro fuel start v hk hok _
      match fuel, hk with
      | 1, _ =>
          rw [retryGo]
          rw [show start + 0 = start from rfl] at hok
          rw [hok]
          rfl
      | n + 2, _ =>
          rw [retryGo]
          rw [show start + 0 = start from rfl] at hok
          rw [hok]
          rfl
  | succ k ih =>
      intro fuel start v hk hok herr
      match fuel, hk with
      | n + 2, hk =>
          obtain ⟨e, he⟩ := herr 0 (Nat.succ_pos k)
          rw [retryGo]
          rw [show start + 0 = start from rfl] at he
          rw [he]
          have hrec := ih (n + 1) (start + 1) v (by omega)
            (by rw [show start + 1 + k = start + (k + 1) from by omega]; exact hok)
            (fun j hj => by
              rw [show start + 1 + j = start + (j + 1) from by omega]
              exact herr (j + 1) (by omega))
          dsimp only
          rw [hrec]
          have hl : backoffWait start ::
              List.map (fun j => backoffWait (start + 1 + j)) (List.range k) =
              List.map (fun j => backoffWait (start + j)) (List.range (k + 1)) := by
            rw [List.range_succ_eq_map, List.map_cons, List.map_map, Nat.add_zero]
            congr 1
            apply List.map_congr_left
            intro j hj
            simp only [Function.comp_apply]
            exact congrArg backoffWait (by omega)
          exact congrArg (Prod.mk (RetryOutcome.success v)) hl

/-- The retry loop raises `GeminiException` only after every attempt
fails, having waited after each attempt except the last. -/
theorem retryGo_exhausted {α : Type} (attempts : ℕ → Except ErrKind α) :
    ∀ (fuel start : ℕ), 0 < fuel →
      (∀ j, j < fuel → ∃ e, attempts (start + j) = .error e) →
      retryGo attempts fuel start =
        (.exhausted, (List.range (fuel - 1)).map (fun j => backoffWait (start + j))) := by
  intro fuel
  induction fuel with
  | zero => intro start h; omega
  | succ n ih =>
      intro start _ herr
      match n with
      | 0 =>
          obtain ⟨e, he⟩ := herr 0 (by omega)
          rw [retryGo]
          rw [show start + 0 = start from rfl] at he
          rw [he]
          rfl
      | n + 1 =>
          obtain ⟨e, he⟩ := herr 0 (by omega)
          rw [retryGo]
          rw [show start + 0 = start from rfl] at he
          rw [he]
          have hrec := ih (start + 1) (by omega) (fun j hj => by
            rw [show start + 1 + j = start + (j + 1) from by omega]
            exact herr (j + 1) (by omega))
          dsimp only
          rw [hrec]
          have hl : backoffWait start ::
              List.map (fun j => backoffWait (start + 1 + j)) (List.range (n + 1 - 1)) =
              List.map (fun j => backoffWait (start + j)) (List.range (n + 1 + 1 - 1)) := by
            simp only [Nat.add_sub_cancel]
            rw [List.range_succ_eq_map, List.map_cons, List.map_map, Nat.add_zero]
            congr 1
            apply List.map_congr_left
            intro j hj
            simp only [Function.comp_apply]
            exact congrArg backoffWait (by omega)
          exact congrArg (Prod.mk RetryOutcome.exhausted) hl

/-- Claim C6 amended: because the `retry_budget` global is never
initialized, every `retry_with_backoff` call in the program's initial
state raises `NameError` before the first attempt (wrapped by
`gemini_enrich` into a `GeminiException`).  Were the budget available,
the loop would make up to `max_retries` attempts with base waits of
`2^attempt` seconds (uncapped, plus jitter), retrying every exception
class alike — timeouts, rate limits, other HTTP errors and parse errors —
returning the first success and raising `GeminiException` only after the
final attempt fails; no error class propagates before the last attempt. -/
theorem C6_retry_behaviour :
    (∀ (α : Type) (att : ℕ → Except ErrKind α) (m : ℕ),
        retry_with_backoff none m att = (.nameError, [])) ∧
    (∀ (α : Type) (att : ℕ → Except ErrKind α) (b m i : ℕ) (v : α),
        m ≤ b → i < m → att i = .ok v → (∀ j, j < i → ∃ e, att j = .error e) →
        retry_with_backoff (some b) m att = (.success v, (List.range i).map backoffWait)) ∧
    (∀ (α : Type) (att : ℕ → Except ErrKind α) (b m : ℕ),
        m ≤ b → 0 < m → (∀ j, j < m → ∃ e, att j = .error e) →
        retry_with_backoff (some b) m att =
          (.exhausted, (List.range (m - 1)).map backoffWait)) := by
  refine ⟨fun α att m => rfl, ?_, ?_⟩
  · intro α att b m i v hmb hi hok herr
    unfold retry_with_backoff
    dsimp only
    rw [if_neg (by omega : ¬ b < m)]
    have hg := retryGo_ok att i m 0 v hi (by simpa using hok) (fun j hj => by
      simpa using herr j hj)
    rw [hg]
    simp
  · intro α att b m hmb hm herr
    unfold retry_with_backoff
    dsimp only
    rw [if_neg (by omega : ¬ b < m)]
    have hg := retryGo_exhausted att m 0 hm (fun j hj => by simpa using herr j hj)
    rw [hg]
    simp

/-- Witness for C6: three timeouts exhaust the three attempts, with waits
after attempts 0 and 1. -/
theorem C6_witness :
    retry_with_backoff (some 3) 3 attemptsC6W =
      (.exhausted, (List.range 2).map backoffWait) :=
  C6_retry_behaviour.2.2 ℕ attemptsC6W 3 3 (le_refl 3) (by omega)
    (fun j _ => ⟨.timeout, rfl⟩)

/-- Claim C1: with enrichment forced to fail persistently (every network
call times out), `analyze_text` does not degrade gracefully — the
`GeminiException` raised by `gemini_enrich` propagates to the caller and
no `AnalyzeResult` is produced.  This evaluates the code at the failing
input of the claim. -/
theorem C1_enrichment_failure_raises :
    analyze_text envC1 textC1 =
      .error (.geminiException "Error in gemini_enrich: Request timed out") := rfl

/-- Claim C10: `analyze_text` awaits `gemini_enrich(text)` once before and
regardless of `settings.gemini_enrichment_enabled` (the flag only gates
the second call), so any error of that call — including `ValueError` for
empty/whitespace-only text and for text over 30,000 characters, and
`GeminiException` for any external failure — propagates out of
`analyze_text` for every environment, in particular when enrichment is
disabled by configuration. -/
theorem C10_first_call_unconditional :
    (∀ (env : AnalyzeEnv) (text : String) (e : GuardianError),
        (gemini_enrich_call env.net1 0 [] text none).result = .error e →
        analyze_text env text = .error e) ∧
    (∀ (α : Type) (net : Except String α) (now : ℤ) (cache : List (String × α × ℤ))
        (text : String) (key : Option String), isBlank text = true →
        (gemini_enrich_call net now cache text key).result =
          .error (.valueError "Empty or whitespace-only text provided")) ∧
    (∀ (α : Type) (net : Except String α) (now : ℤ) (cache : List (String × α × ℤ))
        (text : String) (key : Option String), isBlank text = false → 30000 < text.length →
        (gemini_enrich_call net now cache text key).result =
          .error (.valueError "Text exceeds maximum length limit of 30000 characters")) := by
  refine ⟨?_, ?_, ?_⟩
  · intro env text e h
    unfold analyze_text
    rw [h]
  · intro α net now cache text key hb
    unfold gemini_enrich_call
    rw [hb]
    rfl
  · intro α net now cache text key hb hlen
    unfold gemini_enrich_call
    rw [hb]
    simp only [Bool.false_eq_true, if_false]
    rw [if_pos hlen]

/-- Witness for C10: with enrichment disabled by configuration, a failing
first Gemini call still makes `analyze_text` raise. -/
theorem C10_witness :
    envC10W.enrichmentEnabled = false ∧
    analyze_text envC10W "hello there" =
      .error (.geminiException "Error in gemini_enrich: 429 Too Many Requests") :=
  ⟨rfl, C10_first_call_unconditional.1 envC10W "hello there"
    (.geminiException "Error in gemini_enrich: 429 Too Many Requests") rfl⟩

/-- The match loop preserves the confidence bounds invariant when the
rule's weight is nonnegative. -/
theorem processMatches_ConfBounded (text cat : String) (w : ℚ) (ctx : String) (hw : 0 ≤ w) :
    ∀ (ms : List PatternMatch) (st : PatternState),
      ConfBounded st.threats → ConfBounded (processMatches text cat w ctx ms st).threats := by
  intro ms
  induction ms with
  | nil => intro st h; exact h
  | cons m rest ih =>
      intro st h
      rw [processMatches]
      split
      · exact ih st h
      · dsimp only
        split
        · have hst2 : ConfBounded (acceptState st cat ctx m
              (applyBoost cat st.threats
                (calculate_confidence m.text w ctx text cat))).threats := by
            dsimp only [acceptState]
            intro t ht
            rw [List.mem_append] at ht
            rcases ht with ht | ht
            · exact h t ht
            · simp only [List.mem_singleton] at ht
              subst ht
              dsimp only
              unfold applyBoost
              split
              · exact ⟨seBoost_nonneg _ _ (calculate_confidence_nonneg _ _ _ _ _ hw),
                  seBoost_le_one _ _ (calculate_confidence_le_one _ _ _ _ _)⟩
              · exact ⟨calculate_confidence_nonneg _ _ _ _ _ hw,
                  calculate_confidence_le_one _ _ _ _ _⟩
          split
          · exact ih _ hst2
          · exact hst2
        · exact ih st h

/-- Every threat emitted by `analyze_patterns` has confidence in `[0,1]`
when all rule weights are nonnegative (true of the shipped bank). -/
theorem analyze_patterns_ConfBounded (text : String) (rules : List RuleMatches)
    (hw : ∀ r ∈ rules, 0 ≤ r.weight) : ConfBounded (analyze_patterns text rules) := by
  unfold analyze_patterns patternScan
  have hgen : ∀ (rs : List RuleMatches) (st : PatternState), (∀ r ∈ rs, 0 ≤ r.weight) →
      ConfBounded st.threats → ConfBounded ((rs.foldl (processRule text) st)).threats := by
    intro rs
    induction rs with
    | nil => intro st _ h; exact h
    | cons r rest ih =>
        intro st hws h
        rw [List.foldl_cons]
        exact ih _ (fun q hq => hws q (by simp [hq]))
          (processMatches_ConfBounded text r.category r.weight r.context
            (hws r (by simp)) r.matchList st h)
  exact hgen rules _ hw (fun t ht => absurd ht (by simp))

/-- Updating an association list only introduces the written value. -/
theorem setKey_sub {α : Type} (l : List (String × α)) (k : String) (v : α) :
    ∀ p ∈ setKey l k v, p.2 = v ∨ p ∈ l := by
  induction l with
  | nil =>
      intro p hp
      rw [setKey] at hp
      simp only [List.mem_singleton] at hp
      subst hp
      exact Or.inl rfl
  | cons q t ih =>
      intro p hp
      rw [setKey] at hp
      split at hp
      · rw [List.mem_cons] at hp
        rcases hp with hp | hp
        · subst hp
          exact Or.inl rfl
        · exact Or.inr (by simp [hp])
      · rw [List.mem_cons] at hp
        rcases hp with hp | hp
        · subst hp
          exact Or.inr (by simp)
        · rcases ih p hp with h2 | h2
          · exact Or.inl h2
          · exact Or.inr (by simp [h2])

/-- The scaled category weight is nonnegative for occurrence counts ≥ 1. -/
theorem seCatWeight_nonneg (cat : String) (n : ℕ) (hn : 1 ≤ n) : 0 ≤ seCatWeight cat n := by
  unfold seCatWeight
  split
  · have h1 : (1 : ℚ) ≤ (n : ℚ) := by exact_mod_cast hn
    have := (categoryWeight_pos cat).le
    nlinarith
  · exact (categoryWeight_pos cat).le

/-- One scoring step keeps every stored category score nonnegative. -/
theorem scoreStep_scores_nonneg (acc : ScoreAcc) (t : Threat)
    (hacc : ∀ p ∈ acc.scores, 0 ≤ p.2) (ht : 0 ≤ t.confidence_score) :
    ∀ p ∈ (scoreStep acc t).scores, 0 ≤ p.2 := by
  unfold scoreStep
  dsimp only
  cases hlk : List.lookup t.category acc.scores with
  | some s =>
      intro p hp
      rcases setKey_sub _ _ _ p hp with h2 | h2
      · rw [h2]
        obtain ⟨q, hq, hv⟩ := lookup_val_mem hlk
        have hs : 0 ≤ s := hv ▸ hacc q hq
        exact le_max_of_le_left hs
      · exact hacc p h2
  | none =>
      intro p hp
      rcases setKey_sub _ _ _ p hp with h2 | h2
      · rw [h2]
        exact mul_nonneg ht (seCatWeight_nonneg _ _ (Nat.le_add_left 1 _))
      · exact hacc p h2

/-- All final category scores are nonnegative for nonnegative threat
confidences. -/
theorem categoryScores_nonneg (threats : List Threat)
    (h : ∀ t ∈ threats, 0 ≤ t.confidence_score) :
    ∀ p ∈ categoryScores threats, 0 ≤ p.2 := by
  unfold categoryScores
  have hgen : ∀ (ts : List Threat) (acc : ScoreAcc), (∀ t ∈ ts, 0 ≤ t.confidence_score) →
      (∀ p ∈ acc.scores, 0 ≤ p.2) → ∀ p ∈ (ts.foldl scoreStep acc).scores, 0 ≤ p.2 := by
    intro ts
    induction ts with
    | nil => intro acc _ hacc; exact hacc
    | cons t rest ih =>
        intro acc hts hacc
        rw [List.foldl_cons]
        exact ih _ (fun q hq => hts q (by simp [hq]))
          (scoreStep_scores_nonneg acc t hacc (hts t (by simp)))
  exact hgen threats _ h (fun p hp => absurd hp (by simp))

/-- The weighted sum is nonnegative. -/
theorem weightedSum_nonneg (threats : List Threat) (fs : List ℚ)
    (ht : ∀ t ∈ threats, 0 ≤ t.confidence_score) (hf : ∀ q ∈ fs, 0 ≤ q) :
    0 ≤ weightedSum threats fs := by
  unfold weightedSum
  refine add_nonneg (List.sum_nonneg ?_) (List.sum_nonneg hf)
  intro x hx
  rw [List.mem_map] at hx
  obtain ⟨p, hp, hx⟩ := hx
  rw [← hx]
  exact mul_nonneg (categoryScores_nonneg threats ht p hp) (categoryWeight_pos p.1).le

/-- Python truncation of a nonnegative rational is nonnegative. -/
theorem pyInt_nonneg (q : ℚ) (h : 0 ≤ q) : 0 ≤ pyInt q := by
  unfold pyInt
  rw [if_neg (not_lt.mpr h)]
  exact Int.le_floor.mpr (by exact_mod_cast h)

/-- The pre-graph base score is an integer in `[0, 100]`. -/
theorem base_score_bounds (threats : List Threat) (fs : List ℚ)
    (ht : ∀ t ∈ threats, 0 ≤ t.confidence_score) (hf : ∀ q ∈ fs, 0 ≤ q) :
    0 ≤ base_score threats fs ∧ base_score threats fs ≤ 100 := by
  unfold base_score
  split
  · exact ⟨le_refl 0, by norm_num⟩
  · exact ⟨le_min (by norm_num)
      (pyInt_nonneg _ (mul_nonneg (weightedSum_nonneg threats fs ht hf) (by norm_num))),
      min_le_left _ _⟩

/-- The graph score is clamped to `[0, 1]`. -/
theorem graph_score_bounds (e : Entities) :
    0 ≤ (analyze_graph e).graph_score ∧ (analyze_graph e).graph_score ≤ 1 := by
  dsimp only [analyze_graph]
  constructor
  · refine le_min (by norm_num) ?_
    positivity
  · exact min_le_left _ _

/-- The graph-derived risk increase is nonnegative. -/
theorem risk_increase_nonneg (gf : GraphFeatures) (h : 0 ≤ gf.graph_score) :
    0 ≤ risk_increase gf := by
  unfold risk_increase
  apply pyInt_nonneg
  refine mul_nonneg (mul_nonneg h ?_) (by positivity)
  split <;> norm_num

/-- The post-graph base score stays in `[0, 100]`. -/
theorem final_score_bounds (b : ℤ) (gf : GraphFeatures)
    (hb0 : 0 ≤ b) (hb100 : b ≤ 100) (hg : 0 ≤ gf.graph_score) :
    0 ≤ final_score b gf ∧ final_score b gf ≤ 100 := by
  unfold final_score
  split
  · exact ⟨le_min (by norm_num) (add_nonneg hb0 (risk_increase_nonneg gf hg)),
      min_le_left _ _⟩
  · exact ⟨hb0, hb100⟩

/-- The synthetic coordination threat has confidence in `[0, 1]`. -/
theorem coordinationThreat_bounds (gf : GraphFeatures) (h : 0 ≤ gf.graph_score) :
    0 ≤ (coordinationThreat gf).confidence_score ∧
      (coordinationThreat gf).confidence_score ≤ 1 := by
  dsimp only [coordinationThreat]
  exact ⟨le_min (by norm_num) (by linarith), le_trans (min_le_left _ _) (by norm_num)⟩

/-- Claim C2: every `AnalyzeResult` that `analyze_text` returns has an
integer `risk_score` in `[0, 100]` and every returned threat has
confidence in `[0, 1]` (under the bank's nonnegative rule weights and the
threat-intel scan's nonnegative risk factors); and with no threats
collected the pre-enrichment base score is 0. -/
theorem C2_result_bounds :
    (∀ (env : AnalyzeEnv) (text : String),
        (∀ (lang : String), ∀ r ∈ env.rulesFor lang, 0 ≤ r.weight) →
        (∀ q ∈ env.intel.risk_factors, 0 ≤ q) →
        ∀ res, analyze_text env text = .ok res →
          (0 ≤ res.risk_score ∧ res.risk_score ≤ 100) ∧
          (∀ t ∈ res.threats_detected, 0 ≤ t.confidence_score ∧ t.confidence_score ≤ 1)) ∧
    (∀ intelFactors : List ℚ, base_score [] intelFactors = 0) := by
  constructor
  · intro env text hrw hif res h
    unfold analyze_text at h
    cases hg1 : (gemini_enrich_call env.net1 0 [] text none).result with
    | error e =>
        rw [hg1] at h
        exact absurd h (by simp)
    | ok g1 =>
        rw [hg1] at h
        dsimp only at h
        by_cases hflag : env.enrichmentEnabled = true
        · rw [if_pos hflag] at h
          cases hg2 : (gemini_enrich_call env.net2 0 [] text none).result with
          | error e => rw [hg2] at h; exact absurd h (by simp)
          | ok p => rw [hg2] at h; exact absurd h (by simp)
        · rw [if_neg hflag] at h
          injection h with h2
          subst h2
          have hthreats0 : ∀ t ∈ analyze_patterns text
              (env.rulesFor (detect_language env.detector text)) ++
              env.intel.matchList.map intelThreat,
              0 ≤ t.confidence_score ∧ t.confidence_score ≤ 1 := by
            intro t ht
            rw [List.mem_append] at ht
            rcases ht with ht | ht
            · exact analyze_patterns_ConfBounded text _
                (hrw (detect_language env.detector text)) t ht
            · rw [List.mem_map] at ht
              obtain ⟨mm, _, hmm⟩ := ht
              rw [← hmm]
              exact ⟨by norm_num [intelThreat], by norm_num [intelThreat]⟩
          have hbase := base_score_bounds
            (analyze_patterns text (env.rulesFor (detect_language env.detector text)) ++
              env.intel.matchList.map intelThreat)
            env.intel.risk_factors (fun t ht => (hthreats0 t ht).1) hif
          have hgs := graph_score_bounds env.entities
          constructor
          · exact final_score_bounds _ _ hbase.1 hbase.2 hgs.1
          · intro t ht
            dsimp only at ht
            by_cases hcoord : (analyze_graph env.entities).coordination_detected = true
            · rw [if_pos hcoord] at ht
              rw [List.mem_append] at ht
              rcases ht with ht | ht
              · exact hthreats0 t ht
              · simp only [List.mem_singleton] at ht
                subst ht
                exact coordinationThreat_bounds _ hgs.1
            · rw [if_neg hcoord] at ht
              exact hthreats0 t ht
  · intro intelFactors
    rfl

/-- Witness for C2: the empty-bank environment with enrichment disabled
produces the result `⟨0, [], …⟩`, which satisfies the bounds. -/
theorem C2_witness :
    (0 ≤ resC2W.risk_score ∧ resC2W.risk_score ≤ 100) ∧
    (∀ t ∈ resC2W.threats_detected, 0 ≤ t.confidence_score ∧ t.confidence_score ≤ 1) :=
  C2_result_bounds.1 envC2W "hello"
    (fun lang r hr => absurd hr (by simp [envC2W]))
    (fun q hq => absurd hq (by simp [envC2W]))
    resC2W rfl

end Guardian
